import Mathlib

/-!
# Voizy recommendation service: a shallow embedding of the hybrid recommender

This file embeds the core of the Voizy recommendation service
(`app/ml/models/hybrid.py`, the feature extractors in `app/ml/features/`,
and the recommendation route in `app/api/routes.py`) as Lean definitions and
proves or refutes the specified properties of that code.

Modelling conventions:
* Python floats are modelled as real numbers (`ℝ`).
* Timestamps are modelled at day granularity: `Env.now` is the current day and
  `createdAt` fields are day-valued, so `(utcnow - created_at).days` becomes an
  integer subtraction.
* The data repositories are external collaborators; they appear as an `Env`
  record whose fields have the shapes the recommender calls them with.  The
  list-returning fetches are `Except`-valued so that a data source can raise;
  the single-row lookups return `Option`, mirroring the repository functions
  that return `None` for a missing row and never raise.
* Python dictionaries built by the repositories are modelled as structures
  holding exactly the keys the repository puts in them; a subscript access on
  a key that the building code never inserts is modelled as an explicit
  `Except.error "KeyError: ..."`.
* The randomized exploration step of the diversifier is modelled by an
  injected stream `boost : ℕ → ℝ` of multiplicative factors: position `i` of
  the tail gets factor `boost i` (`1` when the 30% coin flip fails, a uniform
  draw from `[1, 1.1]` when it succeeds).
-/

namespace Voizy

/-! ## Data model -/

/-- A row of the dictionary built by `ContentRepository.get_content_by_id`
(`content_repository.py` lines 44-62).  Note that this dictionary has **no**
`engagement_score` key. -/
structure ContentData where
  contentId : ℕ
  userId : ℕ
  toUserId : Option ℕ := none
  originalPostId : Option ℕ := none
  contentText : String := ""
  createdAt : Option ℤ := none
  impressions : ℕ := 0
  views : ℕ := 0
  isPoll : Bool := false
  totalReactions : ℕ := 0
  totalComments : ℕ := 0
  totalShares : ℕ := 0
  hashtags : List String := []

/-- A row of the dictionary built by `ContentRepository.get_trending_content`
(`content_repository.py` lines 156-169); unlike `get_content_by_id` rows it
carries per-kind counts and an `engagement_score` key. -/
structure TrendingPost where
  contentId : ℕ
  userId : ℕ
  contentText : String := ""
  createdAt : Option ℤ := none
  impressions : ℕ := 0
  views : ℕ := 0
  reactionCount : ℕ := 0
  commentCount : ℕ := 0
  shareCount : ℕ := 0
  engagementScore : ℕ := 0

/-- A row of `InteractionRepository.get_user_content_interactions`
(`interaction_repository.py` lines 71-78).  Only the hour of
`interaction_time` is consumed by the feature extractor, so the timestamp is
modelled by its hour. -/
structure Interaction where
  contentId : ℕ
  interactionType : String
  interactionSubtype : String
  hour : ℕ

/-- The activity dictionary of `UserRepository.get_user_activity_features`
(`user_repository.py` lines 167-177). -/
structure ActivityData where
  postFrequency : ℕ := 0
  commentFrequency : ℕ := 0
  reactionFrequency : ℕ := 0
  shareFrequency : ℕ := 0
  activeDaysPerWeek : ℕ := 0
  avgSessionDuration : ℕ := 0

/-- A row of `UserRepository.get_user_by_id`.  The recommender only tests the
row for existence (profile attributes feed no embedding component), so the
model keeps the identifying field. -/
structure UserData where
  userId : ℕ

/-- The external collaborators (repositories) as the recommender calls them,
per the interface shapes of `hybrid.py`, `user_features.py`,
`content_features.py` and `routes.py`.  The list fetches are fallible; in
particular, the wired `ContentRepository.get_trending_content(self, db, days,
limit)` requires a `db` argument that the call at `hybrid.py` line 408 does
not pass, and that `TypeError` is expressible here as an environment whose
`getTrendingContent` returns an `Except.error`. -/
structure Env where
  now : ℤ
  getUserById : ℕ → Option UserData
  getUserInterests : ℕ → Except String (List String)
  getUserFriends : ℕ → Except String (List ℕ)
  getUsersWithSimilarInterests : ℕ → ℕ → Except String (List ℕ)
  getUserContentInteractions : ℕ → ℕ → Except String (List Interaction)
  getUserEmbedding : ℕ → Option (List ℝ)
  getUserActivityFeatures : ℕ → ActivityData
  getContentById : ℕ → Option ContentData
  getContentEmbedding : ℕ → Option (List ℝ)
  getContentByHashtag : String → ℕ → Except String (List ContentData)
  getTrendingContent : ℕ → ℕ → Except String (List TrendingPost)

/-- An in-flight candidate dictionary as emitted by the four candidate
sources of `hybrid.py`.  The scorer reads the score keys with
`candidate.get(key, 0.0)`, which the field defaults model; the optional
`social_score` key is modelled by an `Option`. -/
structure Candidate where
  contentId : ℕ
  contentBasedScore : ℝ := 0
  collaborativeScore : ℝ := 0
  popularityScore : ℝ := 0
  recencyScore : ℝ := 0
  socialScore : Option ℝ := none

/-- The scored candidate dictionary built by
`HybridRecommender._score_candidates` (`hybrid.py` lines 214-222). -/
structure ScoredCandidate where
  contentId : ℕ
  score : ℝ
  contentSimilarity : ℝ
  collaborativeScore : ℝ
  popularityScore : ℝ
  recencyScore : ℝ
  factors : List String

/-- One element of the list returned by `HybridRecommender.recommend`
(`hybrid.py` lines 84-88). -/
structure Recommendation where
  contentId : ℕ
  score : ℝ
  factors : List String

noncomputable instance : DecidableEq ScoredCandidate := Classical.decEq _

/-! ## Cosine similarity (`HybridRecommender._calculate_similarity`)

`hybrid.py` lines 434-449: empty or length-mismatched inputs short-circuit to
`0.0`; otherwise the result is `sklearn.metrics.pairwise.cosine_similarity`,
which L2-normalizes each vector (leaving an all-zero vector unchanged) and
takes the dot product. -/

/-- Dot product of two equal-length real vectors (`np.dot` on 1-row
matrices). -/
def dotList (u v : List ℝ) : ℝ := (List.zipWith (· * ·) u v).sum

/-- Euclidean norm (`np.linalg.norm`). -/
noncomputable def l2norm (v : List ℝ) : ℝ := Real.sqrt (dotList v v)

/-- Model of `sklearn.preprocessing.normalize` on one row: divide by the L2 norm,
leaving a zero-norm row unchanged. -/
noncomputable def sklearnNormalize (v : List ℝ) : List ℝ :=
  if l2norm v = 0 then v else v.map (· / l2norm v)

/-- Model of `HybridRecommender._calculate_similarity` (`hybrid.py` lines 434-449).
`not vec1` / `not vec2` are the emptiness tests on Python lists. -/
noncomputable def calculateSimilarity (vec1 vec2 : List ℝ) : ℝ :=
  if vec1.length = 0 ∨ vec2.length = 0 ∨ vec1.length ≠ vec2.length then 0
  else dotList (sklearnNormalize vec1) (sklearnNormalize vec2)

/-! ## Feature extraction: content (`app/ml/features/content_features.py`) -/

/-- Python substring containment `pat in s` on character lists. -/
def charsContain (pat : List Char) : List Char → Bool
  | [] => pat.isEmpty
  | c :: cs => pat.isPrefixOf (c :: cs) || charsContain pat cs

/-- Python `pat in s` on strings. -/
def strContains (s pat : String) : Bool := charsContain pat.data s.data

/-- One position of the regex `https?://\S+`: a literal `http://` or
`https://` here, followed by at least one non-whitespace character. -/
def urlAt (l : List Char) : Bool :=
  ("http://".data.isPrefixOf l &&
    match l.drop 7 with
    | c :: _ => !c.isWhitespace
    | [] => false) ||
  ("https://".data.isPrefixOf l &&
    match l.drop 8 with
    | c :: _ => !c.isWhitespace
    | [] => false)

/-- Model of `re.search(r'https?://\S+', text)` (`content_features.py` line 125). -/
def scanUrl : List Char → Bool
  | [] => false
  | c :: cs => urlAt (c :: cs) || scanUrl cs

/-- A regex word character `\w` (ASCII reading). -/
def wordChar (c : Char) : Bool := c.isAlphanum || c = '_'

/-- One position of the regex `@\w+`: an `@` followed by a word character. -/
def mentionAt : List Char → Bool
  | '@' :: c :: _ => wordChar c
  | _ => false

/-- Model of `re.search(r'@\w+', text)` (`content_features.py` line 128). -/
def scanMention : List Char → Bool
  | [] => false
  | c :: cs => mentionAt (c :: cs) || scanMention cs

def positiveWords : List String :=
  ["good", "great", "awesome", "excellent", "happy", "love", "best", "amazing"]

def negativeWords : List String :=
  ["bad", "terrible", "awful", "worst", "hate", "sad", "poor", "disappointing"]

/-- Model of `ContentFeatureExtractor._analyze_sentiment` (`content_features.py`
lines 145-160). -/
def analyzeSentiment (text : String) : String :=
  let textLower := text.toLower
  let positiveCount := (positiveWords.filter (fun w => strContains textLower w)).length
  let negativeCount := (negativeWords.filter (fun w => strContains textLower w)).length
  if negativeCount < positiveCount then "positive"
  else if positiveCount < negativeCount then "negative"
  else "neutral"

def topicKeywords : List (String × List String) :=
  [("technology", ["tech", "software", "app", "computer", "code", "programming"]),
   ("sports", ["game", "team", "player", "score", "win", "sports"]),
   ("entertainment", ["movie", "show", "music", "actor", "song", "artist"]),
   ("politics", ["government", "election", "policy", "president", "vote"]),
   ("business", ["company", "market", "stock", "investment", "business"])]

/-- Model of `ContentFeatureExtractor._extract_topics` (`content_features.py`
lines 162-180): collect, in fixed dictionary order, every topic one of whose
keywords occurs in the lowercased text. -/
def extractTopics (text : String) : List String :=
  let textLower := text.toLower
  (topicKeywords.filter (fun p => p.2.any (fun k => strContains textLower k))).map (·.1)

/-- The dictionary built by `ContentFeatureExtractor._extract_text_features`
(`content_features.py` lines 109-143). -/
structure TextFeatures where
  length : ℕ
  wordCount : ℕ
  hasUrl : Bool
  hasMention : Bool
  sentiment : String
  topics : List String

/-- Model of `ContentFeatureExtractor._extract_text_features`; `str.split()` splits on
whitespace runs, so the word count is the number of non-empty whitespace-
separated chunks. -/
def extractTextFeatures (text : String) : TextFeatures :=
  if text.length = 0 then
    { length := 0, wordCount := 0, hasUrl := false, hasMention := false,
      sentiment := "neutral", topics := [] }
  else
    { length := text.length
      wordCount := ((text.split Char.isWhitespace).filter (fun w => ¬w.isEmpty)).length
      hasUrl := scanUrl text.data
      hasMention := scanMention text.data
      sentiment := analyzeSentiment text
      topics := extractTopics text }

/-- The `engagement` sub-dictionary of
`ContentFeatureExtractor.extract_content_features` (`content_features.py`
lines 25-32). -/
structure EngagementFeatures where
  impressions : ℕ
  views : ℕ
  totalReactions : ℕ
  totalComments : ℕ
  totalShares : ℕ
  engagementRate : ℝ

/-- Model of `ContentFeatureExtractor._calculate_engagement_rate`
(`content_features.py` lines 202-214): weighted engagement divided by
impressions, `0.0` when there are no impressions.  Note the quotient is not
capped. -/
noncomputable def calculateEngagementRate (c : ContentData) : ℝ :=
  if c.impressions = 0 then 0
  else ((c.totalReactions : ℝ) + (c.totalComments : ℝ) * 2 + (c.totalShares : ℝ) * 3) /
    (c.impressions : ℝ)

/-- The engagement feature dictionary for a content row. -/
noncomputable def engagementFeaturesOf (c : ContentData) : EngagementFeatures :=
  { impressions := c.impressions, views := c.views,
    totalReactions := c.totalReactions, totalComments := c.totalComments,
    totalShares := c.totalShares, engagementRate := calculateEngagementRate c }

/-- Model of `ContentFeatureExtractor._compute_text_embedding` (`content_features.py`
lines 216-251): sentiment scalar, 5-topic one-hot, and four text-shape
statistics. -/
noncomputable def computeTextEmbedding (tf : TextFeatures) : List ℝ :=
  let sentimentValue : ℝ :=
    if tf.sentiment = "positive" then 1 else if tf.sentiment = "negative" then -1 else 0
  let topicEmbedding : List ℝ :=
    ["technology", "sports", "entertainment", "politics", "business"].map
      (fun t => if t ∈ tf.topics then 1 else 0)
  let textChars : List ℝ :=
    [min ((tf.length : ℝ) / 500) 1,
     min ((tf.wordCount : ℝ) / 100) 1,
     if tf.hasUrl then 1 else 0,
     if tf.hasMention then 1 else 0]
  sentimentValue :: topicEmbedding ++ textChars

/-- Model of `ContentFeatureExtractor._compute_engagement_embedding`
(`content_features.py` lines 253-269).  The first five components are scaled
by fixed denominators and capped at `1.0`; `engagement_rate` is passed
through unchanged. -/
noncomputable def computeEngagementEmbedding (e : EngagementFeatures) : List ℝ :=
  [min ((e.impressions : ℝ) / 10000) 1,
   min ((e.views : ℝ) / 10000) 1,
   min ((e.totalReactions : ℝ) / 500) 1,
   min ((e.totalComments : ℝ) / 100) 1,
   min ((e.totalShares : ℝ) / 50) 1,
   e.engagementRate]

def hashtagCategories : List String :=
  ["tech", "sport", "music", "movie", "book", "fashion",
   "food", "travel", "game", "fitness", "art", "photo",
   "news", "politics", "business", "science", "health"]

/-- Model of `ContentFeatureExtractor._compute_hashtag_embedding`
(`content_features.py` lines 271-290): category one-hot by substring match on
the lowercased hashtags. -/
noncomputable def computeHashtagEmbedding (hashtags : List String) : List ℝ :=
  hashtagCategories.map
    (fun cat => if hashtags.any (fun h => strContains h.toLower cat) then 1 else 0)

/-- L2 normalization as written in `create_content_embedding` /
`create_user_embedding`: divide by `np.linalg.norm` only when the norm is
positive. -/
noncomputable def normalizeEmbedding (v : List ℝ) : List ℝ :=
  if 0 < l2norm v then v.map (· / l2norm v) else v

/-- Model of `ContentFeatureExtractor.create_content_embedding` (`content_features.py`
lines 75-107): `[]` for missing content, otherwise the normalized
concatenation text ++ engagement ++ hashtag.  The write-back of the stored
embedding is a side effect on the store and does not affect the returned
value. -/
noncomputable def createContentEmbedding (env : Env) (contentId : ℕ) : List ℝ :=
  match env.getContentById contentId with
  | none => []
  | some c =>
      let tf := extractTextFeatures c.contentText
      let ef := engagementFeaturesOf c
      normalizeEmbedding
        (computeTextEmbedding tf ++ computeEngagementEmbedding ef ++
          computeHashtagEmbedding c.hashtags)

/-! ## Feature extraction: user (`app/ml/features/user_features.py`) -/

def interestCategories : List String :=
  ["technology", "sports", "music", "movies", "books", "fashion",
   "food", "travel", "gaming", "fitness", "art", "photography"]

/-- Model of `UserFeatureExtractor._compute_interest_embedding` (`user_features.py`
lines 154-175). -/
noncomputable def computeInterestEmbedding (interests : List String) : List ℝ :=
  interestCategories.map
    (fun cat => if interests.any (fun i => strContains i.toLower cat) then 1 else 0)

/-- Model of `UserFeatureExtractor._compute_activity_embedding` (`user_features.py`
lines 177-201).  The four frequencies are scaled and capped at `1.0`;
`active_days_per_week` is divided by `7` without a cap. -/
noncomputable def computeActivityEmbedding (a : ActivityData) : List ℝ :=
  [min ((a.postFrequency : ℝ) / 10) 1,
   min ((a.commentFrequency : ℝ) / 50) 1,
   min ((a.reactionFrequency : ℝ) / 100) 1,
   min ((a.shareFrequency : ℝ) / 20) 1,
   (a.activeDaysPerWeek : ℝ) / 7]

/-- The dictionary built by `UserFeatureExtractor._compute_derived_features`;
the two distributions are modelled as total lookup functions, matching the
`dict.get(key, 0.0)` reads in `_compute_interaction_embedding`. -/
structure DerivedFeatures where
  reactionDistribution : String → ℝ
  activityTimes : String → ℝ
  engagementLevel : String

/-- Number of reactions with the given subtype
(the `reaction_counts` tally of `user_features.py` lines 108-112). -/
def countReactionSubtype (interactions : List Interaction) (k : String) : ℕ :=
  (interactions.filter
    (fun i => i.interactionType = "reaction" ∧ i.interactionSubtype = k)).length

/-- The activity-time bucket of an hour (`user_features.py` lines 126-135). -/
def hourBucket (h : ℕ) : String :=
  if 6 ≤ h ∧ h < 12 then "morning"
  else if 12 ≤ h ∧ h < 18 then "afternoon"
  else if 18 ≤ h ∧ h < 24 then "evening"
  else "night"

/-- Number of interactions falling in the given time bucket. -/
def countBucket (interactions : List Interaction) (b : String) : ℕ :=
  (interactions.filter (fun i => hourBucket i.hour = b)).length

/-- Model of `UserFeatureExtractor._compute_derived_features` (`user_features.py`
lines 93-152).  Empty interaction history gives empty distributions and
`"low"` engagement. -/
noncomputable def computeDerivedFeatures (interactions : List Interaction) : DerivedFeatures :=
  if interactions.length = 0 then
    { reactionDistribution := fun _ => 0, activityTimes := fun _ => 0,
      engagementLevel := "low" }
  else
    let totalReactions :=
      (interactions.filter (fun i => i.interactionType = "reaction")).length
    let reactionDenom := if totalReactions = 0 then 1 else totalReactions
    let activityDenom := if interactions.length = 0 then 1 else interactions.length
    { reactionDistribution := fun k =>
        (countReactionSubtype interactions k : ℝ) / (reactionDenom : ℝ)
      activityTimes := fun b => (countBucket interactions b : ℝ) / (activityDenom : ℝ)
      engagementLevel :=
        if 50 < interactions.length then "high"
        else if 20 < interactions.length then "medium"
        else "low" }

/-- Model of `UserFeatureExtractor._compute_interaction_embedding` (`user_features.py`
lines 203-237): seven reaction-type shares, four time-of-day shares and an
engagement-level scalar. -/
noncomputable def computeInteractionEmbedding (d : DerivedFeatures) : List ℝ :=
  [d.reactionDistribution "like", d.reactionDistribution "love",
   d.reactionDistribution "laugh", d.reactionDistribution "congratulate",
   d.reactionDistribution "shocked", d.reactionDistribution "sad",
   d.reactionDistribution "angry"] ++
  [d.activityTimes "morning", d.activityTimes "afternoon",
   d.activityTimes "evening", d.activityTimes "night"] ++
  [if d.engagementLevel = "medium" then (0.5 : ℝ)
   else if d.engagementLevel = "high" then 1 else 0]

/-- Model of `UserFeatureExtractor.create_user_embedding` (`user_features.py`
lines 56-91): `[]` when the user row is missing (features are `{}`),
otherwise the normalized concatenation interest ++ activity ++ interaction.
The friend list is fetched by `extract_user_features` (so its failure
propagates) but feeds no embedding component. -/
noncomputable def createUserEmbedding (env : Env) (userId : ℕ) :
    Except String (List ℝ) :=
  match env.getUserById userId with
  | none => .ok []
  | some _ =>
      match env.getUserInterests userId with
      | .error e => .error e
      | .ok interests =>
          match env.getUserFriends userId with
          | .error e => .error e
          | .ok _friends =>
              let activity := env.getUserActivityFeatures userId
              match env.getUserContentInteractions userId 30 with
              | .error e => .error e
              | .ok interactions =>
                  let derived := computeDerivedFeatures interactions
                  .ok (normalizeEmbedding
                    (computeInterestEmbedding interests ++
                      computeActivityEmbedding activity ++
                      computeInteractionEmbedding derived))

/-! ## Candidate sources (`app/ml/models/hybrid.py`) -/

/-- The recency computation shared by the four candidate sources
(`hybrid.py` lines 302-303, 351-353, 391-392, 417-418): age in days is the
difference between `utcnow` and the creation time (`30` when the creation
time is missing), and the score decays linearly to `0` at 30 days. -/
noncomputable def recencyScoreOf (now : ℤ) (createdAt : Option ℤ) : ℝ :=
  let ageDays : ℤ :=
    match createdAt with
    | some t => now - t
    | none => 30
  max 0 (1 - (ageDays : ℝ) / 30)

/-- The subscript `post["engagement_score"]` in
`_get_content_based_candidates` (`hybrid.py` line 310).  The rows delivered
by `get_content_by_hashtag` are built by `get_content_by_id`
(`content_repository.py` lines 44-62, 185-189), and that dictionary contains
no `engagement_score` key, so this subscript raises `KeyError`. -/
def contentDataEngagementScore (_ : ContentData) : Except String ℝ :=
  .error "KeyError: engagement_score"

/-- The inner post loop of `_get_content_based_candidates` (`hybrid.py`
lines 299-312). -/
noncomputable def contentBasedPostLoop (env : Env) (excludeIds : List ℕ)
    (acc : List Candidate) : List ContentData → Except String (List Candidate)
  | [] => .ok acc
  | post :: posts =>
    if post.contentId ∈ excludeIds then contentBasedPostLoop env excludeIds acc posts
    else
      let recencyScore := recencyScoreOf env.now post.createdAt
      match contentDataEngagementScore post with
      | .error e => .error e
      | .ok engagementScore =>
          contentBasedPostLoop env excludeIds
            (acc ++ [{ contentId := post.contentId, contentBasedScore := 0.8,
                       collaborativeScore := 0,
                       popularityScore := min (engagementScore / 100) 1,
                       recencyScore := recencyScore }]) posts

/-- The interest loop of `_get_content_based_candidates` (`hybrid.py`
lines 295-312). -/
noncomputable def contentBasedInterestLoop (env : Env) (excludeIds : List ℕ)
    (acc : List Candidate) : List String → Except String (List Candidate)
  | [] => .ok acc
  | interest :: rest =>
    match env.getContentByHashtag interest.toLower 10 with
    | .error e => .error e
    | .ok posts =>
        match contentBasedPostLoop env excludeIds acc posts with
        | .error e => .error e
        | .ok acc' => contentBasedInterestLoop env excludeIds acc' rest

/-- Model of `HybridRecommender._get_content_based_candidates` (`hybrid.py`
lines 287-314). -/
noncomputable def getContentBasedCandidates (env : Env) (userId : ℕ)
    (excludeIds : List ℕ) : Except String (List Candidate) :=
  match env.getUserInterests userId with
  | .error e => .error e
  | .ok interests => contentBasedInterestLoop env excludeIds [] interests

/-- The interaction-type score of `_get_collaborative_candidates`
(`hybrid.py` lines 336-343). -/
noncomputable def interactionScoreOf (t : String) : ℝ :=
  if t = "reaction" then 0.7
  else if t = "comment" then 0.8
  else if t = "share" then 0.9
  else 0.5

/-- The inner interaction loop of `_get_collaborative_candidates`
(`hybrid.py` lines 330-366); the state is the `content_seen` set paired with
the accumulated candidate list.  `content_seen.add` happens before the
content lookup, so an id whose content row is missing still blocks later
occurrences. -/
noncomputable def collaborativeInteractionLoop (env : Env) (excludeIds : List ℕ)
    (st : List ℕ × List Candidate) :
    List Interaction → List ℕ × List Candidate
  | [] => st
  | inter :: rest =>
    if inter.contentId ∈ excludeIds ∨ inter.contentId ∈ st.1 then
      collaborativeInteractionLoop env excludeIds st rest
    else
      let seen' := st.1 ++ [inter.contentId]
      match env.getContentById inter.contentId with
      | none => collaborativeInteractionLoop env excludeIds (seen', st.2) rest
      | some cd =>
          let recencyScore := recencyScoreOf env.now cd.createdAt
          let engagement : ℕ :=
            cd.totalReactions + cd.totalComments * 2 + cd.totalShares * 3
          let popularityScore := min ((engagement : ℝ) / 100) 1
          collaborativeInteractionLoop env excludeIds
            (seen',
             st.2 ++ [{ contentId := inter.contentId,
                        collaborativeScore := interactionScoreOf inter.interactionType,
                        contentBasedScore := 0,
                        popularityScore := popularityScore,
                        recencyScore := recencyScore }]) rest

/-- The neighbour loop of `_get_collaborative_candidates` (`hybrid.py`
lines 327-366). -/
noncomputable def collaborativeUserLoop (env : Env) (excludeIds : List ℕ)
    (st : List ℕ × List Candidate) : List ℕ → Except String (List ℕ × List Candidate)
  | [] => .ok st
  | similarUser :: rest =>
    match env.getUserContentInteractions similarUser 14 with
    | .error e => .error e
    | .ok interactions =>
        collaborativeUserLoop env excludeIds
          (collaborativeInteractionLoop env excludeIds st interactions) rest

/-- Model of `HybridRecommender._get_collaborative_candidates` (`hybrid.py`
lines 316-368). -/
noncomputable def getCollaborativeCandidates (env : Env) (userId : ℕ)
    (excludeIds : List ℕ) : Except String (List Candidate) :=
  match env.getUsersWithSimilarInterests userId 20 with
  | .error e => .error e
  | .ok similarUsers =>
      match collaborativeUserLoop env excludeIds ([], []) similarUsers with
      | .error e => .error e
      | .ok st => .ok st.2

/-- Model of `HybridRecommender._get_social_candidates` (`hybrid.py` lines 370-404):
the friend list is fetched, but the per-friend post feed is the placeholder
`posts = []`, so the inner loop never runs and the source returns `[]`. -/
noncomputable def getSocialCandidates (env : Env) (userId : ℕ)
    (_excludeIds : List ℕ) : Except String (List Candidate) :=
  match env.getUserFriends userId with
  | .error e => .error e
  | .ok _friends => .ok []

/-- The post loop of `_get_trending_candidates` (`hybrid.py`
lines 412-430). -/
noncomputable def trendingPostLoop (env : Env) (excludeIds : List ℕ)
    (acc : List Candidate) : List TrendingPost → List Candidate
  | [] => acc
  | post :: posts =>
    if post.contentId ∈ excludeIds then trendingPostLoop env excludeIds acc posts
    else
      let recencyScore := recencyScoreOf env.now post.createdAt
      let engagement : ℕ :=
        post.reactionCount + post.commentCount * 2 + post.shareCount * 3
      trendingPostLoop env excludeIds
        (acc ++ [{ contentId := post.contentId,
                   collaborativeScore := 0, contentBasedScore := 0,
                   popularityScore := min ((engagement : ℝ) / 100) 1,
                   recencyScore := recencyScore }]) posts

/-- Model of `HybridRecommender._get_trending_candidates` (`hybrid.py`
lines 406-432): trending posts of the last 3 days, capped at 20. -/
noncomputable def getTrendingCandidates (env : Env) (excludeIds : List ℕ) :
    Except String (List Candidate) :=
  match env.getTrendingContent 3 20 with
  | .error e => .error e
  | .ok trendingPosts => .ok (trendingPostLoop env excludeIds [] trendingPosts)

/-! ## Merge, dedupe, filter (`_get_recommendation_candidates`) -/

/-- The dedupe pass of `_get_recommendation_candidates` (`hybrid.py`
lines 121-129) with its `seen_ids` accumulator: keep a candidate only when
its `content_id` has not been seen yet. -/
def uniqueCandidatesAux (seen : List ℕ) : List Candidate → List Candidate
  | [] => []
  | c :: cs =>
    if c.contentId ∈ seen then uniqueCandidatesAux seen cs
    else c :: uniqueCandidatesAux (c.contentId :: seen) cs

/-- The dedupe pass started with an empty `seen_ids` set. -/
def uniqueCandidates (cands : List Candidate) : List Candidate :=
  uniqueCandidatesAux [] cands

/-- Content-type resolution of the filter step (`hybrid.py` lines 143-147)
and of the route response (`routes.py` lines 102-106). -/
def contentTypeOf (cd : ContentData) : String :=
  if cd.isPoll then "poll"
  else if cd.originalPostId.isSome then "repost"
  else "post"

/-- The `content_types` filter loop (`hybrid.py` lines 133-152): drop
candidates whose content row is missing or whose resolved type is not
allowed. -/
def applyContentTypeFilter (env : Env) (contentTypes : List String) :
    List Candidate → List Candidate
  | [] => []
  | c :: cs =>
    match env.getContentById c.contentId with
    | none => applyContentTypeFilter env contentTypes cs
    | some cd =>
        if contentTypeOf cd ∈ contentTypes then
          c :: applyContentTypeFilter env contentTypes cs
        else applyContentTypeFilter env contentTypes cs

/-- The `filters` dictionary passed to `_get_recommendation_candidates`; the
only key ever read is `content_types`. -/
structure Filters where
  contentTypes : Option (List String) := none

/-- Model of `HybridRecommender._get_recommendation_candidates` (`hybrid.py`
lines 98-156): concatenate the four sources in fixed order, dedupe keeping
the first candidate per `content_id`, then apply the optional content-type
filter (a `filters` dictionary without a `content_types` key keeps every
candidate). -/
noncomputable def getRecommendationCandidates (env : Env) (userId : ℕ)
    (excludeIds : List ℕ) (filters : Option Filters) :
    Except String (List Candidate) :=
  match getContentBasedCandidates env userId excludeIds with
  | .error e => .error e
  | .ok contentBased =>
    match getCollaborativeCandidates env userId excludeIds with
    | .error e => .error e
    | .ok cfCandidates =>
      match getSocialCandidates env userId excludeIds with
      | .error e => .error e
      | .ok socialCandidates =>
        match getTrendingCandidates env excludeIds with
        | .error e => .error e
        | .ok trendingCandidates =>
          let unique := uniqueCandidates
            (contentBased ++ cfCandidates ++ socialCandidates ++ trendingCandidates)
          match filters with
          | none => .ok unique
          | some f =>
              match f.contentTypes with
              | some types => .ok (applyContentTypeFilter env types unique)
              | none => .ok unique

/-! ## Scorer (`_score_candidates`) -/

/-- The weight dictionary set by `HybridRecommender.__init__` (`hybrid.py`
lines 21-26). -/
structure Weights where
  collaborative : ℝ
  contentBased : ℝ
  popularity : ℝ
  recency : ℝ

/-- The default weights of a freshly constructed `HybridRecommender`; the
weights are never reassigned, so `_score_candidates` always reads these
values. -/
noncomputable def modelWeights : Weights :=
  { collaborative := 0.4, contentBased := 0.4, popularity := 0.1, recency := 0.1 }

/-- The content-embedding resolution of `_score_candidates` (`hybrid.py`
lines 169-174): use the stored embedding when it is non-empty, otherwise
compute one with the content feature extractor. -/
noncomputable def contentEmbeddingOf (env : Env) (contentId : ℕ) : List ℝ :=
  match env.getContentEmbedding contentId with
  | some e => if e.length = 0 then createContentEmbedding env contentId else e
  | none => createContentEmbedding env contentId

/-- The similarity term of `_score_candidates` (`hybrid.py` lines 176-180):
cosine similarity between the user embedding and the resolved content
embedding, or `0.0` when either is empty. -/
noncomputable def contentSimilarityOf (env : Env) (userEmbedding : List ℝ)
    (contentId : ℕ) : ℝ :=
  let contentEmbedding := contentEmbeddingOf env contentId
  if userEmbedding.length ≠ 0 ∧ contentEmbedding.length ≠ 0 then
    calculateSimilarity userEmbedding contentEmbedding
  else 0

/-- The factor-labelling block of `_score_candidates` (`hybrid.py`
lines 195-211): all applicable labels in fixed order, with a fallback label
when none applies. -/
noncomputable def scoreFactors (c : Candidate) (contentSimilarity : ℝ) : List String :=
  let factors :=
    (if (0.3 : ℝ) < c.collaborativeScore then ["similar_users"] else []) ++
    (if (0.3 : ℝ) < contentSimilarity then ["your_interests"] else []) ++
    (if (0.3 : ℝ) < c.popularityScore then ["popular"] else []) ++
    (if (0.7 : ℝ) < c.recencyScore then ["recent"] else []) ++
    (match c.socialScore with
     | some s => if (0.3 : ℝ) < s then ["friend_activity"] else []
     | none => [])
  if factors.length = 0 then ["recommended_for_you"] else factors

/-- Scoring of one candidate (`hybrid.py` lines 165-224): the final score is
the weighted sum of the collaborative score, the content similarity, the
popularity score and the recency score. -/
noncomputable def scoreCandidate (env : Env) (userEmbedding : List ℝ)
    (c : Candidate) : ScoredCandidate :=
  let contentSimilarity := contentSimilarityOf env userEmbedding c.contentId
  { contentId := c.contentId
    score := modelWeights.collaborative * c.collaborativeScore +
      modelWeights.contentBased * contentSimilarity +
      modelWeights.popularity * c.popularityScore +
      modelWeights.recency * c.recencyScore
    contentSimilarity := contentSimilarity
    collaborativeScore := c.collaborativeScore
    popularityScore := c.popularityScore
    recencyScore := c.recencyScore
    factors := scoreFactors c contentSimilarity }

/-- Stable insertion into a list sorted by descending score: the new element
(which comes earlier in the original order) goes before the first element
whose score does not exceed it. -/
noncomputable def insertByScoreDesc (c : ScoredCandidate) :
    List ScoredCandidate → List ScoredCandidate
  | [] => [c]
  | d :: ds => if d.score ≤ c.score then c :: d :: ds else d :: insertByScoreDesc c ds

/-- The stable descending sort `scored_candidates.sort(key=score,
reverse=True)` (`hybrid.py` line 227). -/
noncomputable def sortByScoreDesc : List ScoredCandidate → List ScoredCandidate
  | [] => []
  | c :: cs => insertByScoreDesc c (sortByScoreDesc cs)

/-- Model of `HybridRecommender._score_candidates` (`hybrid.py` lines 158-229). -/
noncomputable def scoreCandidates (env : Env) (userEmbedding : List ℝ)
    (candidates : List Candidate) : List ScoredCandidate :=
  sortByScoreDesc (candidates.map (scoreCandidate env userEmbedding))

/-! ## Diversifier (`_diversify_recommendations`) -/

/-- Increment the per-creator tally `creators_seen[creator_id]`. -/
def bumpSeen (seen : ℕ → ℕ) (k : ℕ) : ℕ → ℕ :=
  fun x => if x = k then seen k + 1 else seen x

/-- Pass 1 of `_diversify_recommendations` (`hybrid.py` lines 234-254): walk
the candidates, skip those with a missing content row, admit a candidate only
while its creator's tally is below 2, and stop as soon as 50 are admitted
(the length check is skipped on `continue` but runs after every other
iteration, mirroring the `break` placement). -/
def diversifyPass1 (env : Env) :
    List ScoredCandidate → (ℕ → ℕ) → ℕ → List ScoredCandidate
  | [], _, _ => []
  | c :: cs, seen, n =>
    match env.getContentById c.contentId with
    | none => diversifyPass1 env cs seen n
    | some cd =>
        let creatorId := cd.userId
        if seen creatorId < 2 then
          if 50 ≤ n + 1 then [c]
          else c :: diversifyPass1 env cs (bumpSeen seen creatorId) (n + 1)
        else if 50 ≤ n then []
        else diversifyPass1 env cs seen n

open scoped Classical in
/-- Pass 2 of `_diversify_recommendations` (`hybrid.py` lines 257-263): when
pass 1 admitted fewer than 50 candidates, walk the original list again and
append every candidate not already admitted (`candidate not in diversified`
compares whole dictionaries), stopping at 50. -/
noncomputable def diversifyPass2 :
    List ScoredCandidate → List ScoredCandidate → List ScoredCandidate
  | d, [] => d
  | d, c :: cs =>
    let d' := if c ∈ d then d else d ++ [c]
    if 50 ≤ d'.length then d' else diversifyPass2 d' cs

/-- Passes 1 and 2 combined: the `diversified` list as it stands at
`hybrid.py` line 264, before the exploration step. -/
noncomputable def diversifyPass12 (env : Env) (cands : List ScoredCandidate) :
    List ScoredCandidate :=
  let d := diversifyPass1 env cands (fun _ => 0) 0
  if d.length < 50 then diversifyPass2 d cands else d

/-- The random boosting of `_diversify_recommendations` (`hybrid.py`
lines 274-277) with an injected factor stream: element `i` of the tail has
its score multiplied by `boost i` (`1` when the 30% coin flip fails,
otherwise a uniform draw from `[1, 1.1]`). -/
noncomputable def boostScores (boost : ℕ → ℝ) :
    List ScoredCandidate → List ScoredCandidate
  | [] => []
  | c :: cs =>
      { c with score := c.score * boost 0 } :: boostScores (fun i => boost (i + 1)) cs

/-- Model of `HybridRecommender._diversify_recommendations` (`hybrid.py`
lines 231-285): creator-capped pass, backfill pass, then keep the first 5 in
place and re-sort the boosted remainder by descending score. -/
noncomputable def diversifyRecommendations (env : Env) (boost : ℕ → ℝ)
    (cands : List ScoredCandidate) : List ScoredCandidate :=
  let d := diversifyPass12 env cands
  d.take 5 ++ sortByScoreDesc (boostScores boost (d.drop 5))

/-! ## Orchestrator (`recommend`) and route (`routes.py`) -/

/-- The user-embedding resolution of `recommend` (`hybrid.py` lines 56-65):
a caller-supplied feature dictionary wins (its `embedding` key, defaulting to
`[]`); otherwise the stored embedding is used unless missing or empty, in
which case a fresh embedding is computed. -/
noncomputable def resolveUserEmbedding (env : Env) (userId : ℕ)
    (userFeatures : Option (List ℝ)) : Except String (List ℝ) :=
  match userFeatures with
  | some emb => .ok emb
  | none =>
      match env.getUserEmbedding userId with
      | some e => if e.length = 0 then createUserEmbedding env userId else .ok e
      | none => createUserEmbedding env userId

/-- The response-preparation loop of `recommend` (`hybrid.py` lines 77-89):
drop entries whose content row has disappeared, keep
`{content_id, score, factors}` for the rest. -/
def formatRecommendations (env : Env) : List ScoredCandidate → List Recommendation
  | [] => []
  | r :: rs =>
    match env.getContentById r.contentId with
    | none => formatRecommendations env rs
    | some _ =>
        { contentId := r.contentId, score := r.score, factors := r.factors } ::
          formatRecommendations env rs

/-- The body of `HybridRecommender.recommend` inside the `try` block
(`hybrid.py` lines 48-92). -/
noncomputable def recommendBody (env : Env) (boost : ℕ → ℝ) (userId : ℕ)
    (userFeatures : Option (List ℝ)) (excludeContentIds : Option (List ℕ))
    (filters : Option Filters) (limit : ℕ) : Except String (List Recommendation) :=
  let excludeIds := excludeContentIds.getD []
  match resolveUserEmbedding env userId userFeatures with
  | .error e => .error e
  | .ok userEmbedding =>
      match getRecommendationCandidates env userId excludeIds filters with
      | .error e => .error e
      | .ok candidates =>
          let scored := scoreCandidates env userEmbedding candidates
          let finalRecs := diversifyRecommendations env boost scored
          .ok (formatRecommendations env (finalRecs.take limit))

/-- Model of `HybridRecommender.recommend` (`hybrid.py` lines 29-96): the whole body
runs inside `try`, and `except Exception` logs and returns `[]`. -/
noncomputable def recommend (env : Env) (boost : ℕ → ℝ) (userId : ℕ)
    (userFeatures : Option (List ℝ)) (excludeContentIds : Option (List ℕ))
    (filters : Option Filters) (limit : ℕ) : Except String (List Recommendation) :=
  match recommendBody env boost userId userFeatures excludeContentIds filters limit with
  | .ok recs => .ok recs
  | .error _ => .ok []

/-- Model of `RecommendationRequest` (`api/models.py` lines 6-10) with its field
defaults. -/
structure RecRequest where
  limit : ℕ := 20
  excludeSeen : Bool := true
  contentTypes : Option (List String) := none

/-- Model of `ContentItem` of the route response (`api/models.py` lines 13-21). -/
structure RouteContentItem where
  contentId : ℕ
  creatorId : ℕ
  contentType : String
  title : String
  createdAt : ℤ
  score : ℝ
  relevanceFactors : List String

/-- Model of `RecommendationResponse` (`api/models.py` lines 24-29); the generation
timestamp is not modelled. -/
structure RouteResponse where
  userId : ℕ
  recommendations : List RouteContentItem
  modelVersion : String

/-- A Python exception as seen by the route: either a (starlette/FastAPI)
`HTTPException` carrying a status code and detail, or any other exception
with its message. -/
inductive PyError where
  | httpException (status : ℕ) (detail : String)
  | other (msg : String)

/-- Model of `str(e)` on a caught exception: starlette's `HTTPException.__str__`
renders `"{status_code}: {detail}"`. -/
def pyErrorStr : PyError → String
  | .httpException status detail => toString status ++ ": " ++ detail
  | .other msg => msg

/-- The response-item loop of `get_recommendations` (`routes.py`
lines 95-117). -/
noncomputable def routeResponseItems (env : Env) :
    List Recommendation → List RouteContentItem
  | [] => []
  | rec :: recs =>
    match env.getContentById rec.contentId with
    | none => routeResponseItems env recs
    | some cd =>
        { contentId := cd.contentId
          creatorId := cd.userId
          contentType := contentTypeOf cd
          title := if cd.contentText.length = 0 then "No title" else cd.contentText.take 50
          createdAt := cd.createdAt.getD env.now
          score := rec.score
          relevanceFactors := rec.factors } :: routeResponseItems env recs

/-- The body of the `get_recommendations` route inside its `try` block
(`routes.py` lines 61-124): the user-existence check raises a 404
`HTTPException`, then the model is invoked and the response is built.
`exclude_seen` currently yields an empty seen list, and `filters` carries
`content_types` only when the request supplies a non-empty list. -/
noncomputable def routeBody (env : Env) (boost : ℕ → ℝ) (userId : ℕ)
    (req : RecRequest) : Except PyError RouteResponse :=
  match env.getUserById userId with
  | none => .error (.httpException 404 ("User with ID " ++ toString userId ++ " not found"))
  | some _ =>
      let seenContentIds : List ℕ := []
      let filters : Option Filters :=
        match req.contentTypes with
        | some types =>
            if types.length = 0 then none else some { contentTypes := some types }
        | none => none
      match recommend env boost userId none (some seenContentIds) filters req.limit with
      | .error e => .error (.other e)
      | .ok recs => .ok { userId := userId,
                          recommendations := routeResponseItems env recs,
                          modelVersion := "1.0.0" }

/-- The `get_recommendations` route (`routes.py` lines 51-128): any exception
raised in the body — including the 404 `HTTPException` raised for an unknown
user, which is an `Exception` subclass — is caught by the `except Exception`
clause and re-raised as a 500 `HTTPException` wrapping `str(e)`. -/
noncomputable def getRecommendationsRoute (env : Env) (boost : ℕ → ℝ)
    (userId : ℕ) (req : RecRequest) : Except PyError RouteResponse :=
  match routeBody env boost userId req with
  | .ok r => .ok r
  | .error e =>
      .error (.httpException 500 ("Error generating recommendations: " ++ pyErrorStr e))

/-- The creator of a content id, as the diversifier resolves it
(`content_data.get("user_id")` after `get_content_by_id`). -/
def creatorOf (env : Env) (cid : ℕ) : Option ℕ :=
  (env.getContentById cid).map ContentData.userId

/-- How many entries of a scored-candidate list belong to the given
creator. -/
def countCreator (env : Env) (l : List ScoredCandidate) (creator : ℕ) : ℕ :=
  (l.filter (fun s => creatorOf env s.contentId == some creator)).length

/-! ## Concrete environments and inputs for evaluation -/

/-- An environment in which every lookup misses and every list fetch
succeeds with an empty result. -/
def envBase : Env where
  now := 0
  getUserById := fun _ => none
  getUserInterests := fun _ => .ok []
  getUserFriends := fun _ => .ok []
  getUsersWithSimilarInterests := fun _ _ => .ok []
  getUserContentInteractions := fun _ _ => .ok []
  getUserEmbedding := fun _ => none
  getUserActivityFeatures := fun _ => {}
  getContentById := fun _ => none
  getContentEmbedding := fun _ => none
  getContentByHashtag := fun _ _ => .ok []
  getTrendingContent := fun _ _ => .ok []

/-- A scored candidate with the given id and score and neutral partial
scores. -/
noncomputable def scFor (cid : ℕ) (score : ℝ) : ScoredCandidate :=
  { contentId := cid, score := score, contentSimilarity := 0,
    collaborativeScore := 0, popularityScore := 0, recencyScore := 0,
    factors := [] }

/-- Environment for diversifier runs: content ids 1-3 belong to creator 1,
content ids 4-6 to creator 2. -/
def envDiversify : Env :=
  { envBase with
    getContentById := fun cid =>
      if 1 ≤ cid ∧ cid ≤ 3 then some { contentId := cid, userId := 1 }
      else if 4 ≤ cid ∧ cid ≤ 6 then some { contentId := cid, userId := 2 }
      else none }

/-- Six scored candidates in descending score order: three by creator 1
followed by three by creator 2. -/
noncomputable def candsDiversify : List ScoredCandidate :=
  [scFor 1 6, scFor 2 5, scFor 3 4, scFor 4 3, scFor 5 2, scFor 6 1]

/-- Two scored candidates by two distinct creators (no backfill needed). -/
noncomputable def candsNoBackfill : List ScoredCandidate :=
  [scFor 1 2, scFor 4 1]

/-- The constant boost stream: every coin flip fails, so every factor is
`1`. -/
noncomputable def boostOne : ℕ → ℝ := fun _ => 1

/-- Environment for the content-based source: user 7 has interest
`technology`, and the hashtag fetch returns one fresh post by user 2. -/
def envContentBased : Env :=
  { envBase with
    getUserInterests := fun _ => .ok ["technology"]
    getContentByHashtag := fun _ _ =>
      .ok [{ contentId := 1, userId := 2, createdAt := some 0,
             totalReactions := 5 }] }

/-- Environment for the merge step: the three personalized sources are
empty and the trending fetch returns two posts sharing content id 5 (one
fresh, one undated) and a fresh post with id 7. -/
def envMerge : Env :=
  { envBase with
    getTrendingContent := fun _ _ =>
      .ok [{ contentId := 5, userId := 1, createdAt := some 0 },
           { contentId := 5, userId := 2 },
           { contentId := 7, userId := 1, createdAt := some 0 }] }

/-- The candidate the trending source emits for the fresh id-5 post. -/
noncomputable def candTrending5 : Candidate :=
  { contentId := 5, popularityScore := 0, recencyScore := 1 }

/-- The candidate the trending source emits for the undated id-5 post
(age defaults to 30 days, so the recency score is 0). -/
noncomputable def candTrending5b : Candidate :=
  { contentId := 5, popularityScore := 0, recencyScore := 0 }

/-- The candidate the trending source emits for the fresh id-7 post. -/
noncomputable def candTrending7 : Candidate :=
  { contentId := 7, popularityScore := 0, recencyScore := 1 }

/-- Environment for the scorer: a stored one-component content embedding for
every content id. -/
def envScore : Env :=
  { envBase with getContentEmbedding := fun _ => some [1] }

/-- A candidate carrying only a collaborative signal. -/
noncomputable def candScore : Candidate :=
  { contentId := 1, collaborativeScore := 1 }

/-- Environment in which the interest fetch fails, so candidate generation
raises and `recommend` falls into its `except` clause. -/
def envInterestsFail : Env :=
  { envBase with
    getUserEmbedding := fun _ => some [1]
    getUserInterests := fun _ => .error "OperationalError: interests query failed" }

/-- A content row with 1 impression and 10 shares: weighted engagement 30
against 1 impression. -/
def contentHighRate : ContentData :=
  { contentId := 1, userId := 1, impressions := 1, totalShares := 10 }

/-- Activity statistics at the natural weekly maximum. -/
def activityFullWeek : ActivityData := { activeDaysPerWeek := 7 }

/-! # Proofs -/

/-! ### Dot-product lemmas -/

theorem dotList_nil_left (v : List ℝ) : dotList [] v = 0 := rfl

theorem dotList_nil_right (u : List ℝ) : dotList u [] = 0 := by
  cases u <;> rfl

theorem dotList_cons (x y : ℝ) (u v : List ℝ) :
    dotList (x :: u) (y :: v) = x * y + dotList u v := by
  simp [dotList]

theorem dotList_comm (u v : List ℝ) : dotList u v = dotList v u := by
  induction u generalizing v with
  | nil => cases v <;> simp [dotList]
  | cons x u ih =>
    cases v with
    | nil => simp [dotList]
    | cons y v => rw [dotList_cons, dotList_cons, ih, mul_comm]

theorem dotList_self_nonneg (v : List ℝ) : 0 ≤ dotList v v := by
  induction v with
  | nil => simp [dotList]
  | cons x v ih =>
    rw [dotList_cons]
    have := mul_self_nonneg x
    linarith

theorem dotList_self_eq_zero {v : List ℝ} :
    dotList v v = 0 ↔ ∀ x ∈ v, x = 0 := by
  induction v with
  | nil => simp [dotList]
  | cons x v ih =>
    rw [dotList_cons]
    constructor
    · intro h
      have hx := mul_self_nonneg x
      have hv := dotList_self_nonneg v
      have hx0 : x * x = 0 := by linarith
      have hv0 : dotList v v = 0 := by linarith
      intro y hy
      rcases List.mem_cons.mp hy with rfl | hy
      · exact mul_self_eq_zero.mp hx0
      · exact ih.mp hv0 y hy
    · intro h
      have hx : x = 0 := h x (List.mem_cons_self x v)
      have hv : dotList v v = 0 := ih.mpr fun y hy => h y (List.mem_cons_of_mem x hy)
      rw [hx, hv]
      ring

theorem dotList_zero_left {u : List ℝ} (hu : ∀ x ∈ u, x = 0) (v : List ℝ) :
    dotList u v = 0 := by
  induction u generalizing v with
  | nil => rfl
  | cons x u ih =>
    cases v with
    | nil => rfl
    | cons y v =>
      rw [dotList_cons, hu x (List.mem_cons_self x u),
        ih (fun z hz => hu z (List.mem_cons_of_mem x hz)) v]
      ring

theorem dotList_map_div (u v : List ℝ) (a b : ℝ) :
    dotList (u.map (· / a)) (v.map (· / b)) = dotList u v / (a * b) := by
  induction u generalizing v with
  | nil => simp [dotList]
  | cons x u ih =>
    cases v with
    | nil => simp [dotList]
    | cons y v =>
      simp only [List.map_cons, dotList_cons, ih]
      rw [div_mul_div_comm, add_div]

theorem dotList_map_neg_right (u v : List ℝ) :
    dotList u (v.map (fun x => -x)) = -dotList u v := by
  induction u generalizing v with
  | nil => simp [dotList]
  | cons x u ih =>
    cases v with
    | nil => simp [dotList]
    | cons y v =>
      simp only [List.map_cons, dotList_cons, ih]
      ring

theorem dotList_map_neg_both (u v : List ℝ) :
    dotList (u.map (fun x => -x)) (v.map (fun x => -x)) = dotList u v := by
  induction u generalizing v with
  | nil => simp [dotList]
  | cons x u ih =>
    cases v with
    | nil => simp [dotList]
    | cons y v =>
      simp only [List.map_cons, dotList_cons, ih]
      ring

theorem l2norm_nonneg (v : List ℝ) : 0 ≤ l2norm v := Real.sqrt_nonneg _

theorem l2norm_sq {v : List ℝ} : l2norm v * l2norm v = dotList v v :=
  Real.mul_self_sqrt (dotList_self_nonneg v)

theorem l2norm_pos_of_ne_zero {v : List ℝ} (h : ∃ x ∈ v, x ≠ 0) :
    0 < l2norm v := by
  rcases h with ⟨x, hx, hx0⟩
  have hne : dotList v v ≠ 0 := by
    intro h0
    exact hx0 (dotList_self_eq_zero.mp h0 x hx)
  have hpos : 0 < dotList v v := lt_of_le_of_ne (dotList_self_nonneg v) (Ne.symm hne)
  exact Real.sqrt_pos.mpr hpos

theorem l2norm_eq_zero_of_all_zero {v : List ℝ} (h : ∀ x ∈ v, x = 0) :
    l2norm v = 0 := by
  unfold l2norm
  rw [dotList_self_eq_zero.mpr h, Real.sqrt_zero]

theorem dotList_zero_right {v : List ℝ} (u : List ℝ) (hv : ∀ x ∈ v, x = 0) :
    dotList u v = 0 := by
  rw [dotList_comm]
  exact dotList_zero_left hv u

/-! ### Cosine-similarity lemmas -/

theorem calculateSimilarity_self {v : List ℝ} (h : ∃ x ∈ v, x ≠ 0) :
    calculateSimilarity v v = 1 := by
  have hlen : v.length ≠ 0 := by
    rcases h with ⟨x, hx, _⟩
    cases v with
    | nil => cases hx
    | cons y ys => simp
  have hpos := l2norm_pos_of_ne_zero h
  have hdot : dotList v v ≠ 0 := by
    intro h0
    rcases h with ⟨x, hx, hx0⟩
    exact hx0 (dotList_self_eq_zero.mp h0 x hx)
  unfold calculateSimilarity
  rw [if_neg (by omega)]
  unfold sklearnNormalize
  rw [if_neg (ne_of_gt hpos), dotList_map_div, l2norm_sq, div_self hdot]

theorem calculateSimilarity_neg_self {v : List ℝ} (h : ∃ x ∈ v, x ≠ 0) :
    calculateSimilarity v (v.map (fun x => -x)) = -1 := by
  have hlen : v.length ≠ 0 := by
    rcases h with ⟨x, hx, _⟩
    cases v with
    | nil => cases hx
    | cons y ys => simp
  have hpos := l2norm_pos_of_ne_zero h
  have hdot : dotList v v ≠ 0 := by
    intro h0
    rcases h with ⟨x, hx, hx0⟩
    exact hx0 (dotList_self_eq_zero.mp h0 x hx)
  have hnorm : l2norm (v.map (fun x => -x)) = l2norm v := by
    unfold l2norm
    rw [dotList_map_neg_both]
  unfold calculateSimilarity
  rw [if_neg (by simp only [List.length_map]; omega)]
  unfold sklearnNormalize
  rw [hnorm, if_neg (ne_of_gt hpos), if_neg (ne_of_gt hpos), dotList_map_div,
    dotList_map_neg_right, l2norm_sq, neg_div, div_self hdot]

theorem calculateSimilarity_comm (u v : List ℝ) :
    calculateSimilarity u v = calculateSimilarity v u := by
  unfold calculateSimilarity
  by_cases h : u.length = 0 ∨ v.length = 0 ∨ u.length ≠ v.length
  · rw [if_pos h, if_pos (by omega)]
  · rw [if_neg h, if_neg (by omega)]
    exact dotList_comm _ _

theorem calculateSimilarity_degenerate (u v : List ℝ)
    (h : u.length ≠ v.length ∨ u.length = 0 ∨ v.length = 0 ∨
      (∀ x ∈ u, x = 0) ∨ (∀ x ∈ v, x = 0)) :
    calculateSimilarity u v = 0 := by
  by_cases hc : u.length = 0 ∨ v.length = 0 ∨ u.length ≠ v.length
  · unfold calculateSimilarity
    rw [if_pos hc]
  · rcases h with h | h | h | h | h
    · exact absurd (Or.inr (Or.inr h)) hc
    · exact absurd (Or.inl h) hc
    · exact absurd (Or.inr (Or.inl h)) hc
    · unfold calculateSimilarity
      rw [if_neg hc]
      have hu : sklearnNormalize u = u := by
        unfold sklearnNormalize
        rw [if_pos (l2norm_eq_zero_of_all_zero h)]
      rw [hu]
      exact dotList_zero_left h _
    · unfold calculateSimilarity
      rw [if_neg hc]
      have hv : sklearnNormalize v = v := by
        unfold sklearnNormalize
        rw [if_pos (l2norm_eq_zero_of_all_zero h)]
      rw [hv]
      exact dotList_zero_right _ h

/-- Claim C8: the cosine similarity of `_calculate_similarity` satisfies
`sim(v, v) = 1` and `sim(v, -v) = -1` for every non-zero vector, is
symmetric, and returns `0.0` (without raising — it is a total function) for
mismatched lengths, empty vectors, or an all-zero vector. -/
theorem C8_cosine_similarity :
    (∀ v : List ℝ, (∃ x ∈ v, x ≠ 0) →
      calculateSimilarity v v = 1 ∧
        calculateSimilarity v (v.map (fun x => -x)) = -1) ∧
    (∀ u v : List ℝ, calculateSimilarity u v = calculateSimilarity v u) ∧
    (∀ u v : List ℝ,
      u.length ≠ v.length ∨ u.length = 0 ∨ v.length = 0 ∨
        (∀ x ∈ u, x = 0) ∨ (∀ x ∈ v, x = 0) →
      calculateSimilarity u v = 0) :=
  ⟨fun _ h => ⟨calculateSimilarity_self h, calculateSimilarity_neg_self h⟩,
   calculateSimilarity_comm,
   calculateSimilarity_degenerate⟩

/-- Witness for C8 at the concrete vector `[1]`. -/
theorem C8_cosine_similarity_witness :
    (∃ x ∈ [(1 : ℝ)], x ≠ 0) ∧ calculateSimilarity [(1 : ℝ)] [(1 : ℝ)] = 1 := by
  have hex : ∃ x ∈ [(1 : ℝ)], x ≠ 0 := ⟨1, List.mem_singleton.mpr rfl, one_ne_zero⟩
  exact ⟨hex, (C8_cosine_similarity.1 [(1 : ℝ)] hex).1⟩

/-! ### Merge/dedupe lemmas -/

theorem uniqueCandidatesAux_filter (i : ℕ) (l : List Candidate) :
    ∀ seen : List ℕ,
      (uniqueCandidatesAux seen l).filter (fun c => c.contentId == i) =
        if i ∈ seen then [] else (l.filter (fun c => c.contentId == i)).take 1 := by
  induction l with
  | nil =>
    intro seen
    simp [uniqueCandidatesAux]
  | cons c cs ih =>
    intro seen
    by_cases hmem : c.contentId ∈ seen
    · simp only [uniqueCandidatesAux, if_pos hmem]
      rw [ih]
      by_cases hi : i ∈ seen
      · simp [hi]
      · have hci : (c.contentId == i) = false := by
          simp only [beq_eq_false_iff_ne, ne_eq]
          intro h
          exact hi (h ▸ hmem)
        simp [hi, List.filter_cons, hci]
    · simp only [uniqueCandidatesAux, if_neg hmem]
      by_cases hci : c.contentId = i
      · subst hci
        rw [List.filter_cons_of_pos (by simp)]
        rw [ih]
        simp [hmem, List.filter_cons]
      · have hcib : (c.contentId == i) = false := by
          simp only [beq_eq_false_iff_ne, ne_eq]
          exact hci
        rw [List.filter_cons_of_neg (by simp [hcib])]
        rw [ih]
        have hmc : (i ∈ c.contentId :: seen) ↔ i ∈ seen := by
          simp only [List.mem_cons]
          constructor
          · rintro (rfl | h)
            · exact absurd rfl hci
            · exact h
          · exact Or.inr
        by_cases hi : i ∈ seen
        · simp [hi, hmc]
        · simp [hi, hmc, List.filter_cons, hcib]

theorem uniqueCandidates_filter (i : ℕ) (l : List Candidate) :
    (uniqueCandidates l).filter (fun c => c.contentId == i) =
      (l.filter (fun c => c.contentId == i)).take 1 := by
  unfold uniqueCandidates
  rw [uniqueCandidatesAux_filter]
  simp

/-- Claim C2: candidate generation concatenates the four sources in the
fixed order content-based, collaborative, social, trending, and the dedupe
pass keeps, for each content id, exactly the first candidate seen in that
order (all of its fields), dropping every later candidate with the same id. -/
theorem C2_merge_dedupe (env : Env) (userId : ℕ) (excludeIds : List ℕ)
    (A B C D : List Candidate)
    (hA : getContentBasedCandidates env userId excludeIds = .ok A)
    (hB : getCollaborativeCandidates env userId excludeIds = .ok B)
    (hC : getSocialCandidates env userId excludeIds = .ok C)
    (hD : getTrendingCandidates env excludeIds = .ok D) :
    getRecommendationCandidates env userId excludeIds none =
      .ok (uniqueCandidates (A ++ B ++ C ++ D)) ∧
    ∀ i : ℕ,
      (uniqueCandidates (A ++ B ++ C ++ D)).filter (fun c => c.contentId == i) =
        ((A ++ B ++ C ++ D).filter (fun c => c.contentId == i)).take 1 := by
  constructor
  · unfold getRecommendationCandidates
    rw [hA, hB, hC, hD]
  · intro i
    exact uniqueCandidates_filter i _

/-- Witness for C2: the trending source of `envMerge` emits two candidates
for content id 5 with different recency scores, and the merge keeps exactly
the first. -/
theorem C2_merge_dedupe_witness :
    getContentBasedCandidates envMerge 7 [] = .ok [] ∧
    getCollaborativeCandidates envMerge 7 [] = .ok [] ∧
    getSocialCandidates envMerge 7 [] = .ok [] ∧
    getTrendingCandidates envMerge [] =
      .ok [candTrending5, candTrending5b, candTrending7] ∧
    getRecommendationCandidates envMerge 7 [] none =
      .ok (uniqueCandidates
        ([] ++ [] ++ [] ++ [candTrending5, candTrending5b, candTrending7])) ∧
    (uniqueCandidates
        ([] ++ [] ++ [] ++ [candTrending5, candTrending5b, candTrending7])).filter
        (fun c : Candidate => c.contentId == 5) =
      (([] ++ [] ++ [] ++ ([candTrending5, candTrending5b, candTrending7] : List Candidate)).filter
        (fun c : Candidate => c.contentId == 5)).take 1 := by
  have hA : getContentBasedCandidates envMerge 7 [] = .ok [] := by
    simp [getContentBasedCandidates, envMerge, envBase, contentBasedInterestLoop]
  have hB : getCollaborativeCandidates envMerge 7 [] = .ok [] := by
    simp [getCollaborativeCandidates, envMerge, envBase, collaborativeUserLoop]
  have hC : getSocialCandidates envMerge 7 [] = .ok [] := by
    simp [getSocialCandidates, envMerge, envBase]
  have hD : getTrendingCandidates envMerge [] =
      .ok [candTrending5, candTrending5b, candTrending7] := by
    simp only [getTrendingCandidates, envMerge, envBase, trendingPostLoop,
      recencyScoreOf, candTrending5, candTrending5b, candTrending7,
      List.mem_nil_iff, if_false, List.nil_append]
    norm_num
  obtain ⟨h1, h2⟩ := C2_merge_dedupe envMerge 7 [] _ _ _ _ hA hB hC hD
  exact ⟨hA, hB, hC, hD, h1, h2 5⟩

/-! ### Content-based source: the missing `engagement_score` key (C3) -/

/-- Claim C3 (code bug): on a user with one interest and one fresh,
non-excluded matching post, the content-based source does not emit a
candidate at all — the subscript `post["engagement_score"]` raises
`KeyError`, because the rows delivered by `get_content_by_hashtag` carry
engagement counters but no `engagement_score` key. -/
theorem C3_content_based_keyerror :
    getContentBasedCandidates envContentBased 7 [] =
      .error "KeyError: engagement_score" := by
  simp [getContentBasedCandidates, envContentBased, envBase,
    contentBasedInterestLoop, contentBasedPostLoop, contentDataEngagementScore]

/-! ### Orchestrator failure semantics (C4) -/

/-- Claim C4: whatever any inner stage or data source raises, `recommend`
never propagates it — the whole body sits in a `try` whose `except` clause
returns `[]`, so the call always produces a (possibly empty) list. -/
theorem C4_recommend_never_raises (env : Env) (boost : ℕ → ℝ) (userId : ℕ)
    (userFeatures : Option (List ℝ)) (excludeContentIds : Option (List ℕ))
    (filters : Option Filters) (limit : ℕ) :
    ∃ recs, recommend env boost userId userFeatures excludeContentIds filters
      limit = .ok recs := by
  unfold recommend
  cases recommendBody env boost userId userFeatures excludeContentIds filters limit with
  | ok recs => exact ⟨recs, rfl⟩
  | error e => exact ⟨[], rfl⟩

/-! ### Route behaviour on an unknown user (C5) -/

/-- Claim C5 (code bug): for an unknown user id the route raises the 404
`HTTPException` inside its `try` block, but the `except Exception` clause
catches it (an `HTTPException` is an `Exception`) and re-raises a **500**
error wrapping the message — the caller receives a 500, not a
NotFound-class error. -/
theorem C5_unknown_user_route :
    getRecommendationsRoute envBase boostOne 999 {} =
      .error (.httpException 500
        ("Error generating recommendations: " ++
          pyErrorStr (.httpException 404
            ("User with ID " ++ toString (999 : ℕ) ++ " not found")))) := rfl

/-! ### Feature-vector bounds (C9) -/

theorem min_div_cast_bounds (n : ℕ) (d : ℝ) (hd : 0 < d) :
    0 ≤ min ((n : ℝ) / d) 1 ∧ min ((n : ℝ) / d) 1 ≤ 1 :=
  ⟨le_min (div_nonneg (Nat.cast_nonneg n) hd.le) zero_le_one, min_le_right _ _⟩

/-- Counterexample to C9 as stated: on a content row with 1 impression and
10 shares, the `engagement_rate` component of the engagement embedding is
`30`, far outside `[0, 1]` (and `[-1, 1]`) — it is not pre-scaled by a fixed
constant denominator. -/
theorem C9_engagement_rate_unbounded :
    (computeEngagementEmbedding (engagementFeaturesOf contentHighRate)).getD 5 0 = 30 ∧
    ¬ (computeEngagementEmbedding (engagementFeaturesOf contentHighRate)).getD 5 0 ≤ 1 := by
  have h : (computeEngagementEmbedding (engagementFeaturesOf contentHighRate)).getD 5 0
      = 30 := by
    simp [computeEngagementEmbedding, engagementFeaturesOf,
      calculateEngagementRate, contentHighRate]
    norm_num
  refine ⟨h, ?_⟩
  rw [h]
  norm_num

/-- Claim C9 as amended: in the cited feature extractors every sub-component
is pre-scaled into `[0, 1]` **except** the `engagement_rate` component of the
content engagement embedding, which is only non-negative and may exceed 1;
the `active_days_per_week` component of the activity embedding stays in
`[0, 1]` for activity statistics within their natural weekly range. -/
theorem C9_feature_bounds_amended :
    ∀ (c : ContentData) (a : ActivityData),
      (∀ x ∈ (computeEngagementEmbedding (engagementFeaturesOf c)).take 5,
        0 ≤ x ∧ x ≤ 1) ∧
      0 ≤ calculateEngagementRate c ∧
      (∀ x ∈ (computeActivityEmbedding a).take 4, 0 ≤ x ∧ x ≤ 1) ∧
      (a.activeDaysPerWeek ≤ 7 →
        ∀ x ∈ computeActivityEmbedding a, 0 ≤ x ∧ x ≤ 1) := by
  intro c a
  refine ⟨?_, ?_, ?_, ?_⟩
  · intro x hx
    simp only [computeEngagementEmbedding, engagementFeaturesOf, List.take,
      List.mem_cons, List.mem_singleton, List.not_mem_nil, or_false] at hx
    rcases hx with rfl | rfl | rfl | rfl | rfl <;>
      exact min_div_cast_bounds _ _ (by norm_num)
  · unfold calculateEngagementRate
    by_cases h : c.impressions = 0
    · rw [if_pos h]
    · rw [if_neg h]
      positivity
  · intro x hx
    simp only [computeActivityEmbedding, List.take, List.mem_cons,
      List.mem_singleton, List.not_mem_nil, or_false] at hx
    rcases hx with rfl | rfl | rfl | rfl <;>
      exact min_div_cast_bounds _ _ (by norm_num)
  · intro h7 x hx
    simp only [computeActivityEmbedding, List.mem_cons,
      List.not_mem_nil, or_false] at hx
    rcases hx with rfl | rfl | rfl | rfl | rfl
    · exact min_div_cast_bounds _ _ (by norm_num)
    · exact min_div_cast_bounds _ _ (by norm_num)
    · exact min_div_cast_bounds _ _ (by norm_num)
    · exact min_div_cast_bounds _ _ (by norm_num)
    · constructor
      · positivity
      · rw [div_le_one (by norm_num)]
        exact_mod_cast Nat.cast_le.mpr h7 |>.trans_eq (by norm_num)

/-- Witness for the amended C9 at the maximal weekly activity. -/
theorem C9_feature_bounds_amended_witness :
    activityFullWeek.activeDaysPerWeek ≤ 7 ∧
    (0 ≤ (activityFullWeek.activeDaysPerWeek : ℝ) / 7 ∧
      (activityFullWeek.activeDaysPerWeek : ℝ) / 7 ≤ 1) := by
  have h7 : activityFullWeek.activeDaysPerWeek ≤ 7 := by decide
  have hmem : (activityFullWeek.activeDaysPerWeek : ℝ) / 7 ∈
      computeActivityEmbedding activityFullWeek := by
    simp [computeActivityEmbedding]
  exact ⟨h7,
    (C9_feature_bounds_amended contentHighRate activityFullWeek).2.2.2 h7 _ hmem⟩

/-! ### Scorer lemmas and the score formula (C1) -/

theorem mem_insertByScoreDesc {c x : ScoredCandidate} {l : List ScoredCandidate} :
    x ∈ insertByScoreDesc c l ↔ x = c ∨ x ∈ l := by
  induction l with
  | nil => simp [insertByScoreDesc]
  | cons d ds ih =>
    unfold insertByScoreDesc
    by_cases h : d.score ≤ c.score
    · simp [h, List.mem_cons]
    · simp only [h, if_false, List.mem_cons, ih]
      tauto

theorem mem_sortByScoreDesc {x : ScoredCandidate} {l : List ScoredCandidate} :
    x ∈ sortByScoreDesc l ↔ x ∈ l := by
  induction l with
  | nil => simp [sortByScoreDesc]
  | cons c cs ih =>
    simp [sortByScoreDesc, mem_insertByScoreDesc, ih, List.mem_cons]

/-- Claim C1: a fresh `HybridRecommender` carries exactly the default
weights 0.4/0.4/0.1/0.1, and every scored candidate's final score is
`0.4·collaborative + 0.4·content_similarity + 0.1·popularity + 0.1·recency`,
where the content similarity is the cosine similarity between the user
embedding and the candidate's (stored or freshly computed) content
embedding. -/
theorem C1_final_score_formula :
    modelWeights = (⟨0.4, 0.4, 0.1, 0.1⟩ : Weights) ∧
    ∀ (env : Env) (userEmbedding : List ℝ) (candidates : List Candidate)
      (sc : ScoredCandidate), sc ∈ scoreCandidates env userEmbedding candidates →
      sc.score = 0.4 * sc.collaborativeScore + 0.4 * sc.contentSimilarity +
        0.1 * sc.popularityScore + 0.1 * sc.recencyScore ∧
      sc.contentSimilarity = contentSimilarityOf env userEmbedding sc.contentId := by
  refine ⟨rfl, ?_⟩
  intro env uEmb cands sc hmem
  have hmem' : sc ∈ cands.map (scoreCandidate env uEmb) := by
    unfold scoreCandidates at hmem
    exact mem_sortByScoreDesc.mp hmem
  obtain ⟨c, _, rfl⟩ := List.mem_map.mp hmem'
  exact ⟨by simp [scoreCandidate, modelWeights], by simp [scoreCandidate]⟩

/-- Witness for C1 on a single collaborative candidate with an empty user
embedding. -/
theorem C1_final_score_formula_witness :
    scoreCandidate envScore [] candScore ∈ scoreCandidates envScore [] [candScore] ∧
    (scoreCandidate envScore [] candScore).score =
      0.4 * (scoreCandidate envScore [] candScore).collaborativeScore +
      0.4 * (scoreCandidate envScore [] candScore).contentSimilarity +
      0.1 * (scoreCandidate envScore [] candScore).popularityScore +
      0.1 * (scoreCandidate envScore [] candScore).recencyScore := by
  have hmem : scoreCandidate envScore [] candScore ∈
      scoreCandidates envScore [] [candScore] := by
    simp [scoreCandidates, sortByScoreDesc, insertByScoreDesc]
  exact ⟨hmem, (C1_final_score_formula.2 envScore [] [candScore] _ hmem).1⟩

/-! ### Diversifier lemmas -/

theorem boostScores_map_contentId (l : List ScoredCandidate) :
    ∀ f : ℕ → ℝ, (boostScores f l).map ScoredCandidate.contentId =
      l.map ScoredCandidate.contentId := by
  induction l with
  | nil => intro f; simp [boostScores]
  | cons c cs ih => intro f; simp [boostScores, ih]

theorem insertByScoreDesc_perm (c : ScoredCandidate) (l : List ScoredCandidate) :
    List.Perm (insertByScoreDesc c l) (c :: l) := by
  induction l with
  | nil => exact List.Perm.refl _
  | cons d ds ih =>
    unfold insertByScoreDesc
    by_cases h : d.score ≤ c.score
    · rw [if_pos h]
    · rw [if_neg h]
      exact (ih.cons d).trans (List.Perm.swap c d ds)

theorem sortByScoreDesc_perm (l : List ScoredCandidate) :
    List.Perm (sortByScoreDesc l) l := by
  induction l with
  | nil => exact List.Perm.refl _
  | cons c cs ih => exact (insertByScoreDesc_perm c _).trans (ih.cons c)

theorem countP_boostScores (p : ℕ → Bool) (l : List ScoredCandidate) :
    ∀ f : ℕ → ℝ, (boostScores f l).countP (fun s => p s.contentId) =
      l.countP (fun s => p s.contentId) := by
  induction l with
  | nil => intro f; simp [boostScores]
  | cons c cs ih => intro f; simp [boostScores, List.countP_cons, ih]

/-- The exploration pass only reorders and rescales: per-creator counts in
the diversifier output agree with those of the creator-capped+backfilled
list. -/
theorem diversify_countP (env : Env) (boost : ℕ → ℝ)
    (cands : List ScoredCandidate) (p : ℕ → Bool) :
    (diversifyRecommendations env boost cands).countP (fun s => p s.contentId) =
      (diversifyPass12 env cands).countP (fun s => p s.contentId) := by
  unfold diversifyRecommendations
  rw [List.countP_append]
  rw [(sortByScoreDesc_perm
    (boostScores boost ((diversifyPass12 env cands).drop 5))).countP_eq]
  rw [countP_boostScores]
  rw [← List.countP_append, List.take_append_drop]

/-- Pass 1 admits at most `2 - seen[creator]` further candidates per
creator. -/
theorem diversifyPass1_countP_le (env : Env) (creator : ℕ) :
    ∀ (l : List ScoredCandidate) (seen : ℕ → ℕ) (n : ℕ), seen creator ≤ 2 →
      (diversifyPass1 env l seen n).countP
          (fun s => creatorOf env s.contentId == some creator) +
        seen creator ≤ 2 := by
  intro l
  induction l with
  | nil =>
    intro seen n hs
    simp only [diversifyPass1, List.countP_nil]
    omega
  | cons c cs ih =>
    intro seen n hs
    unfold diversifyPass1
    cases hlk : env.getContentById c.contentId with
    | none => exact ih seen n hs
    | some cd =>
      dsimp only
      by_cases hcap : seen cd.userId < 2
      · rw [if_pos hcap]
        by_cases hbreak : 50 ≤ n + 1
        · rw [if_pos hbreak]
          by_cases hcr : cd.userId = creator
          · have hpred : (creatorOf env c.contentId == some creator) = true := by
              simp [creatorOf, hlk, hcr]
            have hlt : seen creator < 2 := hcr ▸ hcap
            simp only [List.countP_cons, List.countP_nil, hpred]
            simp
            omega
          · have hpred : (creatorOf env c.contentId == some creator) = false := by
              simp [creatorOf, hlk, hcr]
            simp only [List.countP_cons, List.countP_nil, hpred]
            simp
            omega
        · rw [if_neg hbreak]
          rw [List.countP_cons]
          by_cases hcr : cd.userId = creator
          · have hpred : (creatorOf env c.contentId == some creator) = true := by
              simp [creatorOf, hlk, hcr]
            have hlt : seen creator < 2 := hcr ▸ hcap
            have hbump : bumpSeen seen cd.userId creator = seen creator + 1 := by
              simp [bumpSeen, hcr]
            have hih := ih (bumpSeen seen cd.userId) (n + 1) (by omega)
            rw [hbump] at hih
            rw [hpred]
            simp
            omega
          · have hpred : (creatorOf env c.contentId == some creator) = false := by
              simp [creatorOf, hlk, hcr]
            have hbump : bumpSeen seen cd.userId creator = seen creator := by
              simp only [bumpSeen]
              rw [if_neg (fun h => hcr h.symm)]
            have hih := ih (bumpSeen seen cd.userId) (n + 1) (by omega)
            rw [hbump] at hih
            rw [hpred]
            simp
            omega
      · rw [if_neg hcap]
        by_cases hbreak : 50 ≤ n
        · rw [if_pos hbreak]
          simp only [List.countP_nil]
          omega
        · rw [if_neg hbreak]
          exact ih seen n hs

/-- Claim C6 as amended: when the creator-cap pass already accounts for the
whole pre-exploration list (no backfill was needed), no creator appears more
than twice in the diversifier's output.  When pass 1 admits fewer than 50
candidates, the backfill pass appends the remaining candidates in original
order without enforcing the creator cap, so the cap can be exceeded even
when two or more distinct eligible creators exist. -/
theorem C6_creator_cap (env : Env) (boost : ℕ → ℝ)
    (cands : List ScoredCandidate) (creator : ℕ)
    (hnb : diversifyPass12 env cands = diversifyPass1 env cands (fun _ => 0) 0) :
    countCreator env (diversifyRecommendations env boost cands) creator ≤ 2 := by
  have hcount : countCreator env (diversifyRecommendations env boost cands) creator =
      (diversifyRecommendations env boost cands).countP
        (fun s => creatorOf env s.contentId == some creator) :=
    (List.countP_eq_length_filter _ _).symm
  have hdiv := diversify_countP env boost cands
    (fun cid => creatorOf env cid == some creator)
  rw [hcount, hdiv, hnb]
  have h := diversifyPass1_countP_le env creator cands (fun _ => 0) 0 (Nat.zero_le 2)
  have h0 : (fun _ : ℕ => (0 : ℕ)) creator = 0 := rfl
  rw [h0] at h
  omega

/-- Witness for the amended C6: two candidates by two distinct creators need
no backfill, and the cap holds. -/
theorem C6_creator_cap_witness :
    diversifyPass12 envDiversify candsNoBackfill =
      diversifyPass1 envDiversify candsNoBackfill (fun _ => 0) 0 ∧
    countCreator envDiversify
      (diversifyRecommendations envDiversify boostOne candsNoBackfill) 1 ≤ 2 := by
  have h : diversifyPass12 envDiversify candsNoBackfill =
      diversifyPass1 envDiversify candsNoBackfill (fun _ => 0) 0 := by
    simp [diversifyPass12, diversifyPass1, diversifyPass2, envDiversify, envBase,
      candsNoBackfill, bumpSeen, scFor]
  exact ⟨h, C6_creator_cap envDiversify boostOne candsNoBackfill 1 h⟩

/-! ### Concrete diversifier run on six candidates by two creators -/

theorem diversifyDemo_pass1 :
    diversifyPass1 envDiversify candsDiversify (fun _ => 0) 0 =
      [scFor 1 6, scFor 2 5, scFor 4 3, scFor 5 2] := by
  simp [diversifyPass1, candsDiversify, envDiversify, envBase, bumpSeen, scFor]

theorem diversifyDemo_pass2 :
    diversifyPass2 [scFor 1 6, scFor 2 5, scFor 4 3, scFor 5 2] candsDiversify =
      [scFor 1 6, scFor 2 5, scFor 4 3, scFor 5 2, scFor 3 4, scFor 6 1] := by
  simp [diversifyPass2, candsDiversify, scFor, ScoredCandidate.mk.injEq]

theorem diversifyDemo_eval :
    diversifyRecommendations envDiversify boostOne candsDiversify =
      [scFor 1 6, scFor 2 5, scFor 4 3, scFor 5 2, scFor 3 4, scFor 6 1] := by
  have h12 : diversifyPass12 envDiversify candsDiversify =
      [scFor 1 6, scFor 2 5, scFor 4 3, scFor 5 2, scFor 3 4, scFor 6 1] := by
    simp [diversifyPass12, diversifyDemo_pass1, diversifyDemo_pass2]
  unfold diversifyRecommendations
  dsimp only
  rw [h12]
  simp [sortByScoreDesc, insertByScoreDesc, boostScores, boostOne, scFor]

/-- Counterexample to C6 as stated: six candidates by two distinct eligible
creators (three each), so the "fewer than 2 distinct eligible creators"
exception does not apply, yet each creator occurs three times among the
first 50 positions of the output — the backfill pass ignores the cap. -/
theorem C6_creator_cap_counterexample :
    2 < countCreator envDiversify
        (diversifyRecommendations envDiversify boostOne candsDiversify) 1 ∧
    countCreator envDiversify
        (diversifyRecommendations envDiversify boostOne candsDiversify) 1 = 3 ∧
    countCreator envDiversify
        (diversifyRecommendations envDiversify boostOne candsDiversify) 2 = 3 := by
  rw [diversifyDemo_eval]
  refine ⟨?_, ?_, ?_⟩ <;>
    simp [countCreator, creatorOf, envDiversify, envBase, scFor, List.filter]

/-- Claim C7 as amended: the first five entries of the diversifier's output
are the first five entries of the creator-capped+backfilled list (pass 1 and
pass 2), kept in place with their original scores — not the first five
entries of the diversifier's raw input. -/
theorem C7_top5_stability (env : Env) (boost : ℕ → ℝ)
    (cands : List ScoredCandidate) :
    (diversifyRecommendations env boost cands).take 5 =
      (diversifyPass12 env cands).take 5 := by
  unfold diversifyRecommendations
  dsimp only
  by_cases h : (diversifyPass12 env cands).length ≤ 5
  · rw [List.drop_eq_nil_of_le h]
    simp [boostScores, sortByScoreDesc, List.take_take]
  · rw [List.take_append_eq_append_take]
    have hlen : ((diversifyPass12 env cands).take 5).length = 5 := by
      rw [List.length_take]
      omega
    rw [hlen]
    simp [List.take_take]

/-- Counterexample to C7 as stated: on the six-candidate input the third
element of the output is the candidate with content id 4, while the third
element of the input has content id 3 — the first five output entries are
not the first five input entries. -/
theorem C7_top5_counterexample :
    (diversifyRecommendations envDiversify boostOne candsDiversify).take 5 ≠
      candsDiversify.take 5 := by
  rw [diversifyDemo_eval]
  simp [candsDiversify, scFor, ScoredCandidate.mk.injEq]

/-! ### Distinct content ids through the pipeline (C10) -/

theorem uniqueCandidatesAux_nodup :
    ∀ (l : List Candidate) (seen : List ℕ),
      ((uniqueCandidatesAux seen l).map Candidate.contentId).Nodup ∧
      ∀ i ∈ seen, i ∉ (uniqueCandidatesAux seen l).map Candidate.contentId := by
  intro l
  induction l with
  | nil =>
    intro seen
    simp [uniqueCandidatesAux]
  | cons c cs ih =>
    intro seen
    unfold uniqueCandidatesAux
    by_cases hmem : c.contentId ∈ seen
    · rw [if_pos hmem]
      exact ih seen
    · rw [if_neg hmem]
      obtain ⟨hnd, hnotin⟩ := ih (c.contentId :: seen)
      refine ⟨?_, ?_⟩
      · simp only [List.map_cons, List.nodup_cons]
        exact ⟨hnotin c.contentId (List.mem_cons_self _ _), hnd⟩
      · intro i hi
        simp only [List.map_cons, List.mem_cons, not_or]
        refine ⟨?_, hnotin i (List.mem_cons_of_mem _ hi)⟩
        rintro rfl
        exact hmem hi

theorem uniqueCandidates_nodup (l : List Candidate) :
    ((uniqueCandidates l).map Candidate.contentId).Nodup :=
  (uniqueCandidatesAux_nodup l []).1

theorem applyContentTypeFilter_sublist (env : Env) (types : List String) :
    ∀ l, List.Sublist (applyContentTypeFilter env types l) l := by
  intro l
  induction l with
  | nil => simp [applyContentTypeFilter]
  | cons c cs ih =>
    cases hlk : env.getContentById c.contentId with
    | none =>
      simp only [applyContentTypeFilter, hlk]
      exact ih.cons c
    | some cd =>
      simp only [applyContentTypeFilter, hlk]
      by_cases h : contentTypeOf cd ∈ types
      · rw [if_pos h]
        exact ih.cons₂ c
      · rw [if_neg h]
        exact ih.cons c

theorem getRecommendationCandidates_nodup (env : Env) (userId : ℕ)
    (excludeIds : List ℕ) (filters : Option Filters) (cands : List Candidate)
    (h : getRecommendationCandidates env userId excludeIds filters = .ok cands) :
    (cands.map Candidate.contentId).Nodup := by
  unfold getRecommendationCandidates at h
  cases hA : getContentBasedCandidates env userId excludeIds with
  | error e => rw [hA] at h; simp at h
  | ok A =>
  rw [hA] at h
  cases hB : getCollaborativeCandidates env userId excludeIds with
  | error e => rw [hB] at h; simp at h
  | ok B =>
  rw [hB] at h
  cases hC : getSocialCandidates env userId excludeIds with
  | error e => rw [hC] at h; simp at h
  | ok C =>
  rw [hC] at h
  cases hD : getTrendingCandidates env excludeIds with
  | error e => rw [hD] at h; simp at h
  | ok D =>
  rw [hD] at h
  dsimp only at h
  cases filters with
  | none =>
    simp only [Except.ok.injEq] at h
    subst h
    exact uniqueCandidates_nodup _
  | some f =>
    dsimp only at h
    cases hft : f.contentTypes with
    | none =>
      rw [hft] at h
      simp only [Except.ok.injEq] at h
      subst h
      exact uniqueCandidates_nodup _
    | some types =>
      rw [hft] at h
      simp only [Except.ok.injEq] at h
      subst h
      exact (uniqueCandidates_nodup _).sublist
        ((applyContentTypeFilter_sublist env types _).map _)

theorem scoreCandidates_map_perm (env : Env) (uEmb : List ℝ)
    (cands : List Candidate) :
    List.Perm ((scoreCandidates env uEmb cands).map ScoredCandidate.contentId)
      (cands.map Candidate.contentId) := by
  unfold scoreCandidates
  have h := (sortByScoreDesc_perm
    (cands.map (scoreCandidate env uEmb))).map ScoredCandidate.contentId
  rw [List.map_map] at h
  have hcomp : (ScoredCandidate.contentId ∘ scoreCandidate env uEmb) =
      Candidate.contentId := rfl
  rw [hcomp] at h
  exact h

theorem diversifyPass1_sublist (env : Env) :
    ∀ (l : List ScoredCandidate) (seen : ℕ → ℕ) (n : ℕ),
      List.Sublist (diversifyPass1 env l seen n) l := by
  intro l
  induction l with
  | nil => intro seen n; simp [diversifyPass1]
  | cons c cs ih =>
    intro seen n
    cases hlk : env.getContentById c.contentId with
    | none =>
      simp only [diversifyPass1, hlk]
      exact (ih seen n).cons c
    | some cd =>
      simp only [diversifyPass1, hlk]
      by_cases hcap : seen cd.userId < 2
      · rw [if_pos hcap]
        by_cases hbreak : 50 ≤ n + 1
        · rw [if_pos hbreak]
          exact (List.nil_sublist cs).cons₂ c
        · rw [if_neg hbreak]
          exact (ih _ _).cons₂ c
      · rw [if_neg hcap]
        by_cases hbreak : 50 ≤ n
        · rw [if_pos hbreak]
          exact List.nil_sublist _
        · rw [if_neg hbreak]
          exact (ih seen n).cons c

theorem diversifyPass2_nodup_aux (src : List ScoredCandidate)
    (hsrc : (src.map ScoredCandidate.contentId).Nodup) :
    ∀ (cands d : List ScoredCandidate),
      (∀ x ∈ d, x ∈ src) → ((d.map ScoredCandidate.contentId).Nodup) →
      (∀ x ∈ cands, x ∈ src) →
      ((diversifyPass2 d cands).map ScoredCandidate.contentId).Nodup ∧
      ∀ x ∈ diversifyPass2 d cands, x ∈ src := by
  intro cands
  induction cands with
  | nil =>
    intro d hd hnd _
    simp only [diversifyPass2]
    exact ⟨hnd, hd⟩
  | cons c cs ih =>
    intro d hd hnd hc
    have hcsrc : c ∈ src := hc c (List.mem_cons_self _ _)
    have hcs : ∀ x ∈ cs, x ∈ src := fun x hx => hc x (List.mem_cons_of_mem _ hx)
    simp only [diversifyPass2]
    by_cases hmem : c ∈ d
    · rw [if_pos hmem]
      by_cases hlen : 50 ≤ d.length
      · rw [if_pos hlen]
        exact ⟨hnd, hd⟩
      · rw [if_neg hlen]
        exact ih d hd hnd hcs
    · rw [if_neg hmem]
      have hd' : ∀ x ∈ d ++ [c], x ∈ src := by
        intro x hx
        rcases List.mem_append.mp hx with hx | hx
        · exact hd x hx
        · rw [List.mem_singleton.mp hx]
          exact hcsrc
      have hnd' : ((d ++ [c]).map ScoredCandidate.contentId).Nodup := by
        rw [List.map_append]
        refine List.nodup_append.mpr ⟨hnd, List.nodup_singleton _, ?_⟩
        intro a ha hac
        rw [List.mem_singleton.mp hac] at ha
        obtain ⟨e, he, heid⟩ := List.mem_map.mp ha
        have : e = c := List.inj_on_of_nodup_map hsrc (hd e he) hcsrc heid
        exact hmem (this ▸ he)
      by_cases hlen : 50 ≤ (d ++ [c]).length
      · rw [if_pos hlen]
        exact ⟨hnd', hd'⟩
      · rw [if_neg hlen]
        exact ih (d ++ [c]) hd' hnd' hcs

theorem diversifyPass12_nodup (env : Env) (cands : List ScoredCandidate)
    (h : (cands.map ScoredCandidate.contentId).Nodup) :
    ((diversifyPass12 env cands).map ScoredCandidate.contentId).Nodup := by
  unfold diversifyPass12
  dsimp only
  have hsub := diversifyPass1_sublist env cands (fun _ => 0) 0
  have hd0 : ((diversifyPass1 env cands (fun _ => 0) 0).map
      ScoredCandidate.contentId).Nodup := h.sublist (hsub.map _)
  by_cases hlen : (diversifyPass1 env cands (fun _ => 0) 0).length < 50
  · rw [if_pos hlen]
    exact (diversifyPass2_nodup_aux cands h cands _
      (fun x hx => hsub.subset hx) hd0 (fun x hx => hx)).1
  · rw [if_neg hlen]
    exact hd0

theorem diversify_nodup (env : Env) (boost : ℕ → ℝ)
    (cands : List ScoredCandidate)
    (h : (cands.map ScoredCandidate.contentId).Nodup) :
    ((diversifyRecommendations env boost cands).map
      ScoredCandidate.contentId).Nodup := by
  have h12 := diversifyPass12_nodup env cands h
  unfold diversifyRecommendations
  dsimp only
  have h1 : List.Perm
      ((sortByScoreDesc (boostScores boost
        ((diversifyPass12 env cands).drop 5))).map ScoredCandidate.contentId)
      (((diversifyPass12 env cands).drop 5).map ScoredCandidate.contentId) := by
    have hp := (sortByScoreDesc_perm (boostScores boost
      ((diversifyPass12 env cands).drop 5))).map ScoredCandidate.contentId
    rw [boostScores_map_contentId] at hp
    exact hp
  have hperm : List.Perm
      ((((diversifyPass12 env cands).take 5) ++
        sortByScoreDesc (boostScores boost
          ((diversifyPass12 env cands).drop 5))).map ScoredCandidate.contentId)
      ((diversifyPass12 env cands).map ScoredCandidate.contentId) := by
    rw [List.map_append]
    refine (List.Perm.append_left _ h1).trans ?_
    rw [← List.map_append, List.take_append_drop]
  exact hperm.nodup_iff.mpr h12

theorem formatRecommendations_map_sublist (env : Env) :
    ∀ l, List.Sublist ((formatRecommendations env l).map Recommendation.contentId)
      (l.map ScoredCandidate.contentId) := by
  intro l
  induction l with
  | nil => simp [formatRecommendations]
  | cons r rs ih =>
    cases hlk : env.getContentById r.contentId with
    | none =>
      simp only [formatRecommendations, hlk, List.map_cons]
      exact ih.cons _
    | some cd =>
      simp only [formatRecommendations, hlk, List.map_cons]
      exact ih.cons₂ _

/-- Claim C10: whenever `recommend` returns a list, the content ids of its
entries are pairwise distinct — the merge-time dedupe produces distinct ids
and no later stage (filtering, scoring, diversification including backfill,
truncation, response formatting) reintroduces a duplicate. -/
theorem C10_distinct_recommendation_ids (env : Env) (boost : ℕ → ℝ)
    (userId : ℕ) (userFeatures : Option (List ℝ))
    (excludeContentIds : Option (List ℕ)) (filters : Option Filters)
    (limit : ℕ) (recs : List Recommendation)
    (h : recommend env boost userId userFeatures excludeContentIds filters
      limit = .ok recs) :
    (recs.map Recommendation.contentId).Nodup := by
  unfold recommend at h
  cases hbody : recommendBody env boost userId userFeatures excludeContentIds
      filters limit with
  | error e =>
    rw [hbody] at h
    simp only [Except.ok.injEq] at h
    subst h
    simp
  | ok out =>
    rw [hbody] at h
    simp only [Except.ok.injEq] at h
    subst h
    unfold recommendBody at hbody
    dsimp only at hbody
    cases hemb : resolveUserEmbedding env userId userFeatures with
    | error e => rw [hemb] at hbody; simp at hbody
    | ok uEmb =>
      rw [hemb] at hbody
      cases hcand : getRecommendationCandidates env userId
          (excludeContentIds.getD []) filters with
      | error e => rw [hcand] at hbody; simp at hbody
      | ok cands =>
        rw [hcand] at hbody
        simp only [Except.ok.injEq] at hbody
        subst hbody
        have h1 : (cands.map Candidate.contentId).Nodup :=
          getRecommendationCandidates_nodup env userId _ filters cands hcand
        have h2 : ((scoreCandidates env uEmb cands).map
            ScoredCandidate.contentId).Nodup :=
          (scoreCandidates_map_perm env uEmb cands).nodup_iff.mpr h1
        have h3 := diversify_nodup env boost _ h2
        have h4 : (((diversifyRecommendations env boost
            (scoreCandidates env uEmb cands)).take limit).map
            ScoredCandidate.contentId).Nodup := by
          rw [List.map_take]
          exact h3.sublist (List.take_sublist _ _)
        exact h4.sublist (formatRecommendations_map_sublist env _)

/-- Witness for C10: with a failing interest fetch the pipeline raises
internally, `recommend` returns the empty list, and its ids are trivially
distinct. -/
theorem C10_distinct_recommendation_ids_witness :
    recommend envInterestsFail boostOne 7 none none none 20 = .ok [] ∧
    (([] : List Recommendation).map Recommendation.contentId).Nodup := by
  have h : recommend envInterestsFail boostOne 7 none none none 20 = .ok [] := by
    simp [recommend, recommendBody, resolveUserEmbedding, envInterestsFail,
      envBase, getRecommendationCandidates, getContentBasedCandidates]
  exact ⟨h,
    C10_distinct_recommendation_ids envInterestsFail boostOne 7 none none none
      20 [] h⟩

end Voizy
